import Mathlib

/-!
Verification of the affordability pipeline of `src/app.py` (SA bank
statement analyzer): transaction parsing, recurring income/expense
detection, the NCA affordability calculator and the decline-reason
explainer.  Python floats are embedded as exact rationals; monetary
amounts parsed from text are exact multiples of 1/100.
-/

/-- A normalized transaction: `(date, description, amount)` as built by
`parse_transactions_from_text` (src/app.py line 54).  Positive amounts are
credits, negative are debits. -/
structure Transaction where
  date : String
  description : String
  amount : ℚ
deriving DecidableEq, Repr

/-! ## Affordability calculator (src/app.py lines 169-189)

Pure functions of the detected gross monthly income `g` and recurring
monthly expense `e`, embedding lines 169-189 over ℚ. -/

/-- Line 170: `net_income = monthly_income * 0.75`. -/
def net_income (g : ℚ) : ℚ := g * 0.75

/-- Line 169: `estimated_other_debt = monthly_income * 0.10`. -/
def estimated_other_debt (g : ℚ) : ℚ := g * 0.10

/-- Line 171: `discretionary_income = net_income - monthly_expenses - estimated_other_debt`. -/
def discretionary_income (g e : ℚ) : ℚ := net_income g - e - estimated_other_debt g

/-- Line 180: `monthly_rate = interest_rate / 100 / 12` with `interest_rate = 22.0`. -/
def monthly_rate : ℚ := 22 / 100 / 12

/-- Line 174: `loan_term = 24`. -/
def loan_term : ℕ := 24

/-- The reverse-annuity factor of line 181:
`((1 + monthly_rate)**loan_term - 1) / (monthly_rate * (1 + monthly_rate)**loan_term)`. -/
def annuity_factor : ℚ :=
  ((1 + monthly_rate) ^ loan_term - 1) / (monthly_rate * (1 + monthly_rate) ^ loan_term)

/-- Lines 178-183: `max_payment = discretionary_income / 1.5` when
`discretionary_income > 0`, else `0`. -/
def max_payment (g e : ℚ) : ℚ :=
  if 0 < discretionary_income g e then discretionary_income g e / 1.5 else 0

/-- Lines 178-184: `max_loan = max_payment * annuity_factor` when
`discretionary_income > 0`, else `0`. -/
def max_loan (g e : ℚ) : ℚ :=
  if 0 < discretionary_income g e then max_payment g e * annuity_factor else 0

/-- Line 187: `affordability_ratio = discretionary_income / net_income * 100
if net_income > 0 else 0`. -/
def affordability_ratio (g e : ℚ) : ℚ :=
  if 0 < net_income g then discretionary_income g e / net_income g * 100 else 0

/-- Line 188: `debt_service_ratio = max_payment / net_income * 100 if net_income > 0 else 0`. -/
def debt_service_ratio (g e : ℚ) : ℚ :=
  if 0 < net_income g then max_payment g e / net_income g * 100 else 0

/-- Line 189: `nca_compliant = discretionary_income > 0 and
affordability_ratio >= 25 and debt_service_ratio <= 30`. -/
def nca_compliant (g e : ℚ) : Bool :=
  decide (0 < discretionary_income g e) && decide (25 ≤ affordability_ratio g e)
    && decide (debt_service_ratio g e ≤ 30)

/-- Line 194: the applicant is reported as qualifying when
`nca_compliant and max_loan >= 1000`. -/
def qualifies_report (g e : ℚ) : Bool :=
  nca_compliant g e && decide (1000 ≤ max_loan g e)

/-! ## Decision explainer (src/app.py lines 210-222)

The six decline-reason predicates, in source order.  Each constructor
stands for the formatted message string the code appends. -/

/-- The decline reasons of lines 211-222, one constructor per appended
message (the numeric payload carried by a message is kept, its human
formatting is abstracted). -/
inductive DeclineReason where
  | incomeTooLow (income : ℚ)
  | expensesTooHigh (expenses : ℚ)
  | noDiscretionaryIncome
  | affordabilityTooLow (ratio : ℚ)
  | debtServiceTooHigh (ratio : ℚ)
  | loanBelowMinimum
deriving DecidableEq, Repr

/-- Lines 210-222: the ordered decline-reason list built when the applicant
does not qualify; each `if` appends its reason independently. -/
def decline_reasons (g e : ℚ) : List DeclineReason :=
  (if g < 8000 then [DeclineReason.incomeTooLow g] else []) ++
  (if g * 0.6 < e then [DeclineReason.expensesTooHigh e] else []) ++
  (if discretionary_income g e ≤ 0 then [DeclineReason.noDiscretionaryIncome] else []) ++
  (if affordability_ratio g e < 25 then
    [DeclineReason.affordabilityTooLow (affordability_ratio g e)] else []) ++
  (if 30 < debt_service_ratio g e then
    [DeclineReason.debtServiceTooHigh (debt_service_ratio g e)] else []) ++
  (if max_loan g e < 1000 then [DeclineReason.loanBelowMinimum] else [])

/-! ## Shared facts about the calculator -/

lemma monthly_rate_pos : (0 : ℚ) < monthly_rate := by norm_num [monthly_rate]

lemma one_add_rate_pow_pos : (0 : ℚ) < (1 + monthly_rate) ^ loan_term :=
  pow_pos (by linarith [monthly_rate_pos]) loan_term

lemma one_lt_one_add_rate_pow : (1 : ℚ) < (1 + monthly_rate) ^ loan_term :=
  one_lt_pow₀ (by linarith [monthly_rate_pos]) (by norm_num [loan_term])

lemma annuity_factor_pos : (0 : ℚ) < annuity_factor := by
  unfold annuity_factor
  exact div_pos (by linarith [one_lt_one_add_rate_pow])
    (mul_pos monthly_rate_pos one_add_rate_pow_pos)

lemma max_payment_nonneg (g e : ℚ) : 0 ≤ max_payment g e := by
  unfold max_payment
  split
  · positivity
  · exact le_refl 0

lemma max_loan_nonneg (g e : ℚ) : 0 ≤ max_loan g e := by
  unfold max_loan
  split
  · exact mul_nonneg (max_payment_nonneg g e) (le_of_lt annuity_factor_pos)
  · exact le_refl 0

/-- C1: the assessment is NCA-compliant iff `discretionaryIncome > 0`,
`affordabilityRatioPct ≥ 25` and `debtServiceRatioPct ≤ 30`; the applicant
is reported as qualifying iff additionally `maxLoanAmount ≥ 1000`; and both
ratio percentages are `discretionaryIncome/netMonthlyIncome*100` resp.
`maxMonthlyPayment/netMonthlyIncome*100` when net income is positive and `0`
whenever `netMonthlyIncome ≤ 0`, for every income/expense pair. -/
theorem nca_compliance_rule (g e : ℚ) :
    (nca_compliant g e = true ↔
      0 < discretionary_income g e ∧ 25 ≤ affordability_ratio g e ∧
        debt_service_ratio g e ≤ 30) ∧
    (qualifies_report g e = true ↔ nca_compliant g e = true ∧ 1000 ≤ max_loan g e) ∧
    (net_income g ≤ 0 → affordability_ratio g e = 0 ∧ debt_service_ratio g e = 0) ∧
    (0 < net_income g →
      affordability_ratio g e = discretionary_income g e / net_income g * 100 ∧
      debt_service_ratio g e = max_payment g e / net_income g * 100) := by
  refine ⟨?_, ?_, ?_, ?_⟩
  · simp [nca_compliant, and_assoc]
  · simp [qualifies_report]
  · intro h
    constructor <;> simp [affordability_ratio, debt_service_ratio, not_lt.mpr h]
  · intro h
    constructor <;> simp [affordability_ratio, debt_service_ratio, h]

/-- C2: for every gross income `g` and recurring expense `e` the calculator
computes `netMonthlyIncome = 0.75*g`, `estimatedOtherDebt = 0.10*g`,
`discretionaryIncome = net - e - otherDebt`, `maxMonthlyPayment =
discretionary/1.5` when positive and `0` otherwise (zero discretionary
income yields payment 0 and loan 0), and `maxLoanAmount = maxMonthlyPayment *
((1+r)^24 - 1) / (r*(1+r)^24)` with `r = 22/100/12`. -/
theorem affordability_formulas (g e : ℚ) :
    net_income g = 0.75 * g ∧
    estimated_other_debt g = 0.10 * g ∧
    discretionary_income g e = net_income g - e - estimated_other_debt g ∧
    (0 < discretionary_income g e → max_payment g e = discretionary_income g e / 1.5) ∧
    (discretionary_income g e ≤ 0 → max_payment g e = 0) ∧
    (discretionary_income g e = 0 → max_payment g e = 0 ∧ max_loan g e = 0) ∧
    monthly_rate = 22 / 100 / 12 ∧
    max_loan g e = max_payment g e *
      ((1 + monthly_rate) ^ (24 : ℕ) - 1) / (monthly_rate * (1 + monthly_rate) ^ (24 : ℕ)) := by
  refine ⟨by unfold net_income; ring, by unfold estimated_other_debt; ring, rfl, ?_, ?_, ?_,
    rfl, ?_⟩
  · intro h; simp [max_payment, h]
  · intro h; simp [max_payment, not_lt.mpr h]
  · intro h; constructor <;> simp [max_payment, max_loan, h]
  · unfold max_loan
    split
    · unfold annuity_factor loan_term
      ring
    · simp [max_payment, *]

lemma discretionary_income_eq (g e : ℚ) : discretionary_income g e = 0.65 * g - e := by
  unfold discretionary_income net_income estimated_other_debt; ring

lemma max_loan_mono_in_disc (g1 e1 g2 e2 : ℚ)
    (h : discretionary_income g1 e1 ≤ discretionary_income g2 e2) :
    max_loan g1 e1 ≤ max_loan g2 e2 := by
  by_cases h1 : 0 < discretionary_income g1 e1
  · have h2 : 0 < discretionary_income g2 e2 := lt_of_lt_of_le h1 h
    rw [max_loan, max_loan, max_payment, max_payment, if_pos h1, if_pos h2, if_pos h1,
      if_pos h2]
    have hd : discretionary_income g1 e1 / 1.5 ≤ discretionary_income g2 e2 / 1.5 := by
      rw [div_eq_mul_inv, div_eq_mul_inv]
      exact mul_le_mul_of_nonneg_right h (by norm_num)
    exact mul_le_mul_of_nonneg_right hd (le_of_lt annuity_factor_pos)
  · rw [max_loan, if_neg h1]
    exact max_loan_nonneg g2 e2

/-- C7: `maxLoanAmount` is monotone: with expenses fixed, a larger gross
income never gives a smaller `maxLoanAmount`; with gross income fixed, a
larger recurring expense never gives a larger `maxLoanAmount`. -/
theorem max_loan_monotone (e g g1 g2 e1 e2 : ℚ) (hg : g1 ≤ g2) (he : e1 ≤ e2) :
    max_loan g1 e ≤ max_loan g2 e ∧ max_loan g e2 ≤ max_loan g e1 := by
  constructor
  · apply max_loan_mono_in_disc
    rw [discretionary_income_eq, discretionary_income_eq]
    linarith
  · apply max_loan_mono_in_disc
    rw [discretionary_income_eq, discretionary_income_eq]
    linarith

/-- C7 witness: the monotonicity theorem evaluated at gross incomes 10000 ≤ 20000
and expenses 0 ≤ 500. -/
theorem max_loan_monotone_witness :
    max_loan 10000 0 ≤ max_loan 20000 0 ∧ max_loan 10000 500 ≤ max_loan 10000 0 :=
  max_loan_monotone 0 10000 10000 20000 0 500 (by norm_num) (by norm_num)

/-- Modelled from the spec: the standard forward annuity-payment formula at
the same `monthlyRate` and `termMonths` — the instalment that amortizes a
principal over `loan_term` months at `monthly_rate` (src/app.py has only the
reverse direction, line 181). -/
def forward_payment (principal : ℚ) : ℚ :=
  principal * (monthly_rate * (1 + monthly_rate) ^ loan_term) /
    ((1 + monthly_rate) ^ loan_term - 1)

/-- C8: amortization round-trip — whenever `maxMonthlyPayment > 0`, applying
the forward annuity-payment formula at the same rate and term to the
computed `maxLoanAmount` reproduces `maxMonthlyPayment` exactly over ℚ. -/
theorem amortization_round_trip (g e : ℚ) (h : 0 < max_payment g e) :
    forward_payment (max_loan g e) = max_payment g e := by
  have hd : 0 < discretionary_income g e := by
    by_contra hle
    rw [max_payment, if_neg hle] at h
    exact lt_irrefl 0 h
  unfold forward_payment max_loan annuity_factor
  rw [if_pos hd]
  have h1 : (1 + monthly_rate) ^ loan_term - 1 ≠ 0 := by
    have := one_lt_one_add_rate_pow; linarith
  have h2 : monthly_rate * (1 + monthly_rate) ^ loan_term ≠ 0 :=
    ne_of_gt (mul_pos monthly_rate_pos one_add_rate_pow_pos)
  field_simp

/-- C8 witness: the round trip at gross income 20000 and zero expenses,
where the payment is positive. -/
theorem amortization_round_trip_witness :
    forward_payment (max_loan 20000 0) = max_payment 20000 0 :=
  amortization_round_trip 20000 0 (by with_unfolding_all decide)

lemma mem_ite_nil {α : Type} (a : α) (c : Prop) [Decidable c] (l : List α) :
    a ∈ (if c then l else []) ↔ c ∧ a ∈ l := by
  split <;> simp_all

/-- C6: on every decline (`compliant` false or the loan below the R1,000
floor), each decline predicate of lines 211-222 is evaluated independently —
a reason is in the list iff its predicate holds — and the decline-reason
list is never empty: the six predicates cover every way a decline can
arise, so the no-predicate-fires fallback situation cannot occur. -/
theorem decline_reasons_cover (g e : ℚ) (h : qualifies_report g e = false) :
    decline_reasons g e ≠ [] ∧
    (DeclineReason.incomeTooLow g ∈ decline_reasons g e ↔ g < 8000) ∧
    (DeclineReason.expensesTooHigh e ∈ decline_reasons g e ↔ g * 0.6 < e) ∧
    (DeclineReason.noDiscretionaryIncome ∈ decline_reasons g e ↔
      discretionary_income g e ≤ 0) ∧
    (DeclineReason.affordabilityTooLow (affordability_ratio g e) ∈ decline_reasons g e ↔
      affordability_ratio g e < 25) ∧
    (DeclineReason.debtServiceTooHigh (debt_service_ratio g e) ∈ decline_reasons g e ↔
      30 < debt_service_ratio g e) ∧
    (DeclineReason.loanBelowMinimum ∈ decline_reasons g e ↔ max_loan g e < 1000) := by
  have hmem : ∀ r : DeclineReason, r ∈ decline_reasons g e ↔
      (g < 8000 ∧ r = DeclineReason.incomeTooLow g) ∨
      (g * 0.6 < e ∧ r = DeclineReason.expensesTooHigh e) ∨
      (discretionary_income g e ≤ 0 ∧ r = DeclineReason.noDiscretionaryIncome) ∨
      (affordability_ratio g e < 25 ∧
        r = DeclineReason.affordabilityTooLow (affordability_ratio g e)) ∨
      (30 < debt_service_ratio g e ∧
        r = DeclineReason.debtServiceTooHigh (debt_service_ratio g e)) ∨
      (max_loan g e < 1000 ∧ r = DeclineReason.loanBelowMinimum) := by
    intro r
    simp only [decline_reasons, List.mem_append, mem_ite_nil, List.mem_singleton, or_assoc]
  refine ⟨?_, ?_, ?_, ?_, ?_, ?_, ?_⟩
  · -- coverage: some predicate fires on every decline
    have hq : ¬(nca_compliant g e = true ∧ 1000 ≤ max_loan g e) := by
      intro hand
      rw [qualifies_report, hand.1] at h
      simp at h
      exact absurd hand.2 (not_le.mpr h)
    have hfire : discretionary_income g e ≤ 0 ∨ affordability_ratio g e < 25 ∨
        30 < debt_service_ratio g e ∨ max_loan g e < 1000 := by
      by_contra hall
      push_neg at hall
      obtain ⟨h1, h2, h3, h4⟩ := hall
      exact hq ⟨by simp [nca_compliant, h1, h2, h3], h4⟩
    rcases hfire with hc | hc | hc | hc
    · exact List.ne_nil_of_mem ((hmem DeclineReason.noDiscretionaryIncome).mpr
        (Or.inr (Or.inr (Or.inl ⟨hc, rfl⟩))))
    · exact List.ne_nil_of_mem
        ((hmem (DeclineReason.affordabilityTooLow (affordability_ratio g e))).mpr
          (Or.inr (Or.inr (Or.inr (Or.inl ⟨hc, rfl⟩)))))
    · exact List.ne_nil_of_mem
        ((hmem (DeclineReason.debtServiceTooHigh (debt_service_ratio g e))).mpr
          (Or.inr (Or.inr (Or.inr (Or.inr (Or.inl ⟨hc, rfl⟩))))))
    · exact List.ne_nil_of_mem ((hmem DeclineReason.loanBelowMinimum).mpr
        (Or.inr (Or.inr (Or.inr (Or.inr (Or.inr ⟨hc, rfl⟩))))))
  all_goals rw [hmem]
  all_goals simp

/-- C6 witness: the explainer at gross income 1000 and zero expenses, a
declined case (the debt-service ratio is 57.8 percent). -/
theorem decline_reasons_cover_witness :
    decline_reasons 1000 0 ≠ [] ∧
    (DeclineReason.incomeTooLow 1000 ∈ decline_reasons 1000 0 ↔ (1000 : ℚ) < 8000) ∧
    (DeclineReason.expensesTooHigh 0 ∈ decline_reasons 1000 0 ↔ (1000 : ℚ) * 0.6 < 0) ∧
    (DeclineReason.noDiscretionaryIncome ∈ decline_reasons 1000 0 ↔
      discretionary_income 1000 0 ≤ 0) ∧
    (DeclineReason.affordabilityTooLow (affordability_ratio 1000 0) ∈ decline_reasons 1000 0 ↔
      affordability_ratio 1000 0 < 25) ∧
    (DeclineReason.debtServiceTooHigh (debt_service_ratio 1000 0) ∈ decline_reasons 1000 0 ↔
      30 < debt_service_ratio 1000 0) ∧
    (DeclineReason.loanBelowMinimum ∈ decline_reasons 1000 0 ↔ max_loan 1000 0 < 1000) :=
  decline_reasons_cover 1000 0 (by with_unfolding_all decide)

/-! ## Recurring pattern detection (src/app.py lines 58-139)

Helper embeddings of the Python primitives the detectors use: substring
test (`in`), whitespace split, `str.lower`, banker's rounding (`round`
with a negative digit count), `max` over a nonempty list, and the
`date[:7]` month bucket. -/

/-- Boolean infix test on lists: does `needle` occur contiguously in `hay`. -/
def isSubListOf (needle : List Char) : List Char → Bool
  | [] => needle.isPrefixOf []
  | c :: rest => needle.isPrefixOf (c :: rest) || isSubListOf needle rest

/-- Python `needle in hay` on strings: character-level substring test. -/
def containsSub (needle hay : String) : Bool :=
  isSubListOf needle.toList hay.toList

/-- Python `round` to the nearest integer, ties to the even integer
(Python rounds floats half-to-even). -/
def roundHalfEven (x : ℚ) : ℤ :=
  if x - ⌊x⌋ < 1 / 2 then ⌊x⌋
  else if 1 / 2 < x - ⌊x⌋ then ⌊x⌋ + 1
  else if ⌊x⌋ % 2 = 0 then ⌊x⌋ else ⌊x⌋ + 1

/-- Python `round(x, -1)`: nearest multiple of 10, ties to even. -/
def round10 (x : ℚ) : ℚ := ((roundHalfEven (x / 10) * 10 : ℤ) : ℚ)

/-- Python `round(x, -2)`: nearest multiple of 100, ties to even. -/
def round100 (x : ℚ) : ℚ := ((roundHalfEven (x / 100) * 100 : ℤ) : ℚ)

/-- Python `max` over a list; the sources only apply it to nonempty lists
(Python raises on an empty one, here the junk value 0 is returned). -/
def pyMax : List ℚ → ℚ
  | [] => 0
  | [x] => x
  | x :: y :: rest => max x (pyMax (y :: rest))

/-- Accumulator-style whitespace split, Python `str.split()`: splits on
runs of whitespace and drops empty pieces. -/
def pySplitAux : List Char → List Char → List (List Char)
  | [], cur => if cur = [] then [] else [cur.reverse]
  | c :: rest, cur =>
    if c.isWhitespace then
      if cur = [] then pySplitAux rest [] else cur.reverse :: pySplitAux rest []
    else pySplitAux rest (c :: cur)

/-- Python `s.split()` with no separator argument. -/
def pySplit (s : List Char) : List (List Char) := pySplitAux s []

/-- The first seven characters of a date string, Python `date[:7]` (line 98

and 129): the month bucket the code uses. -/
def dateBucket (d : String) : String := ⟨d.toList.take 7⟩

/-- Lines 98 and 129: the distinct `date[:7]` buckets of the dates that
contain a `-` or `/` separator. -/
def monthsOf (dates : List String) : List String :=
  ((dates.filter fun d => d.toList.contains '-' || d.toList.contains '/').map
    dateBucket).dedup

/-- Line 62-70: the keyword-category table of `smart_expense_detection`,
in source (insertion) order. -/
def expense_patterns : List (String × List String) :=
  [("insurance", ["direct debit disc", "disclife", "disc prem", "disc invt", "legacy",
     "insurance", "medical aid"]),
   ("loans", ["western", "loan", "finance", "credit"]),
   ("children", ["kinders", "child", "skool", "school", "nasorg", "onderhoud", "verblyf",
     "maintenance"]),
   ("utilities", ["prepaid debit electricity", "electricity", "municipal", "water"]),
   ("cellular", ["mtn", "vodacom", "cell c", "telkom"]),
   ("vehicle", ["tracker", "insurance", "fuel", "aa"]),
   ("other_debits", ["direct debit", "stop order", "debit order"])]

/-- Line 80: admin-fee descriptions skipped by the expense detector. -/
def skip_words : List String := ["transaction charge", "admin fee", "notification fee"]

/-- Lines 84-88: the first category of `expense_patterns` with a keyword in
the lowered description, else the category named other. -/
def categorize (descLower : String) : String :=
  match expense_patterns.find? (fun p => p.2.any fun pat => containsSub pat descLower) with
  | some p => p.1
  | none => "other"

/-- Line 91: the first three whitespace-split words of the lowered
description that are longer than two characters, joined by blanks. -/
def key_words (descLower : String) : String :=
  ⟨List.intercalate [' '] (((pySplit descLower.toList).take 3).filter fun w => 2 < w.length)⟩

/-- Lines 76-81: a transaction enters expense grouping iff it is a debit
below -100 whose description has no admin-fee phrase. -/
def expenseFilter (t : Transaction) : Bool :=
  decide (t.amount < -100) &&
    !(skip_words.any fun w => containsSub w t.description.toLower)

/-- Line 92: the expense group key `(category, round(abs(amount), -1),
key_words[:20])`. -/
def expenseKeyOf (t : Transaction) : String × ℚ × String :=
  (categorize t.description.toLower, round10 |t.amount|,
    ⟨(key_words t.description.toLower).toList.take 20⟩)

/-- The debit transactions grouped, lines 73-93. -/
def expenseEntries (ts : List Transaction) : List Transaction := ts.filter expenseFilter

/-- The distinct expense group keys of a transaction list. -/
def expenseKeys (ts : List Transaction) : List (String × ℚ × String) :=
  ((expenseEntries ts).map expenseKeyOf).dedup

/-- The occurrence dates collected for one expense group key (line 93). -/
def expenseDates (ts : List Transaction) (k : String × ℚ × String) : List String :=
  ((expenseEntries ts).filter fun t => expenseKeyOf t = k).map Transaction.date

/-- Lines 96-100: the group keys qualifying as recurring expenses — at
least 2 distinct month buckets and at least 2 occurrences. -/
def expenseRecurring (ts : List Transaction) : List (String × ℚ × String) :=
  (expenseKeys ts).filter fun k =>
    decide (2 ≤ (monthsOf (expenseDates ts k)).length) &&
      decide (2 ≤ (expenseDates ts k).length)

/-- Line 103: `total_expense`, the sum of the bucketed amounts of all
recurring expense groups. -/
def smart_expense_total (ts : List Transaction) : ℚ :=
  ((expenseRecurring ts).map fun k => k.2.1).sum

/-- Line 114: the income keyword list. -/
def income_patterns : List String :=
  ["salary", "credit", "pay", "wage", "income", "nyefin", "scanfin"]

/-- Lines 118-121: a transaction enters income grouping iff it is a credit
above 1000 with an income keyword in its lowered description. -/
def incomeFilter (t : Transaction) : Bool :=
  decide (1000 < t.amount) &&
    (income_patterns.any fun p => containsSub p t.description.toLower)

/-- Line 123: the income group key `round(amount, -2)`. -/
def incomeKeyOf (t : Transaction) : ℚ := round100 t.amount

/-- The credit transactions grouped, lines 117-124. -/
def incomeEntries (ts : List Transaction) : List Transaction := ts.filter incomeFilter

/-- The distinct income group keys of a transaction list. -/
def incomeKeys (ts : List Transaction) : List ℚ :=
  ((incomeEntries ts).map incomeKeyOf).dedup

/-- The occurrence dates collected for one income group key (line 124). -/
def incomeDates (ts : List Transaction) (k : ℚ) : List String :=
  ((incomeEntries ts).filter fun t => incomeKeyOf t = k).map Transaction.date

/-- Lines 127-131: the income keys qualifying as recurring — at least 2
distinct month buckets (no explicit occurrence-count test here). -/
def incomeRecurring (ts : List Transaction) : List ℚ :=
  (incomeKeys ts).filter fun k => decide (2 ≤ (monthsOf (incomeDates ts k)).length)

/-- Line 138: the credits above 5000, the fallback income candidates. -/
def credits (ts : List Transaction) : List ℚ :=
  (ts.map Transaction.amount).filter fun a => decide (5000 < a)

/-- Lines 111-139, `smart_income_detection`: the highest recurring income
bucket; else the largest single credit above 5000; else the 15000 default. -/
def smart_income_detection (ts : List Transaction) : ℚ :=
  if incomeRecurring ts ≠ [] then pyMax (incomeRecurring ts)
  else if credits ts ≠ [] then pyMax (credits ts)
  else 15000

/-! ## Facts about the detectors -/

lemma pyMax_mem : ∀ l : List ℚ, l ≠ [] → pyMax l ∈ l
  | [], h => absurd rfl h
  | [x], _ => by simp [pyMax]
  | x :: y :: rest, _ => by
    rw [pyMax]
    rcases le_total x (pyMax (y :: rest)) with h | h
    · rw [max_eq_right h]
      exact List.mem_cons_of_mem x (pyMax_mem (y :: rest) (by simp))
    · rw [max_eq_left h]
      exact List.mem_cons_self x (y :: rest)

lemma le_pyMax : ∀ (l : List ℚ) (x : ℚ), x ∈ l → x ≤ pyMax l
  | [], x, h => absurd h (by simp)
  | [y], x, h => by
    simp only [List.mem_singleton] at h
    simp [pyMax, h]
  | y :: z :: rest, x, h => by
    rw [pyMax]
    rcases List.mem_cons.mp h with rfl | h2
    · exact le_max_left _ _
    · exact le_trans (le_pyMax (z :: rest) x h2) (le_max_right _ _)

lemma pyMax_lt_sum (l : List ℚ) (h2 : 2 ≤ l.length) (hpos : ∀ x ∈ l, 0 < x) :
    pyMax l < l.sum := by
  have hne : l ≠ [] := by
    intro h; rw [h] at h2; simp at h2
  have hm : pyMax l ∈ l := pyMax_mem l hne
  have hperm : List.Perm l (pyMax l :: l.erase (pyMax l)) := List.perm_cons_erase hm
  have hsum : l.sum = pyMax l + (l.erase (pyMax l)).sum := by
    rw [hperm.sum_eq]; simp
  have hlen : 1 ≤ (l.erase (pyMax l)).length := by
    rw [List.length_erase_of_mem hm]
    omega
  have herasene : l.erase (pyMax l) ≠ [] := by
    intro h; rw [h] at hlen; simp at hlen
  have hpos2 : 0 < (l.erase (pyMax l)).sum := by
    apply List.sum_pos
    · intro x hx
      exact hpos x (List.mem_of_mem_erase hx)
    · exact herasene
  linarith

lemma floor_le_roundHalfEven (x : ℚ) : ⌊x⌋ ≤ roundHalfEven x := by
  unfold roundHalfEven
  split
  · exact le_refl _
  · split
    · omega
    · split
      · exact le_refl _
      · omega

lemma round100_ge (x : ℚ) (h : 1000 < x) : 1000 ≤ round100 x := by
  have h1 : (10 : ℤ) ≤ ⌊x / 100⌋ := by
    rw [Int.le_floor]
    push_cast
    linarith
  have h2 : (10 : ℤ) ≤ roundHalfEven (x / 100) :=
    le_trans h1 (floor_le_roundHalfEven _)
  unfold round100
  have : (1000 : ℤ) ≤ roundHalfEven (x / 100) * 100 := by nlinarith
  exact_mod_cast this

lemma round10_ge (x : ℚ) (h : 100 < x) : 100 ≤ round10 x := by
  have h1 : (10 : ℤ) ≤ ⌊x / 10⌋ := by
    rw [Int.le_floor]
    push_cast
    linarith
  have h2 : (10 : ℤ) ≤ roundHalfEven (x / 10) :=
    le_trans h1 (floor_le_roundHalfEven _)
  unfold round10
  have : (100 : ℤ) ≤ roundHalfEven (x / 10) * 10 := by nlinarith
  exact_mod_cast this

lemma incomeKey_ge (ts : List Transaction) (k : ℚ) (hk : k ∈ incomeKeys ts) :
    1000 ≤ k := by
  rw [incomeKeys, List.mem_dedup] at hk
  obtain ⟨t, ht, rfl⟩ := List.mem_map.mp hk
  rw [incomeEntries, List.mem_filter] at ht
  have := ht.2
  rw [incomeFilter, Bool.and_eq_true] at this
  have hamt : 1000 < t.amount := of_decide_eq_true this.1
  exact round100_ge t.amount hamt

lemma expenseKey_amount_ge (ts : List Transaction) (k : String × ℚ × String)
    (hk : k ∈ expenseKeys ts) : 100 ≤ k.2.1 := by
  rw [expenseKeys, List.mem_dedup] at hk
  obtain ⟨t, ht, rfl⟩ := List.mem_map.mp hk
  rw [expenseEntries, List.mem_filter] at ht
  have := ht.2
  rw [expenseFilter, Bool.and_eq_true] at this
  have hamt : t.amount < -100 := of_decide_eq_true this.1
  have : (100 : ℚ) < |t.amount| := by
    rw [abs_of_neg (by linarith)]
    linarith
  exact round10_ge _ this

/-- C3: with at least two qualifying recurring credit series, the detected
monthly income is the maximum — an element of the recurring bucket set that
bounds every element, and strictly below their sum; with at least two
qualifying recurring debit series, the total recurring expense is the sum
of their bucketed amounts, strictly above their maximum. -/
theorem income_is_max_expense_is_sum (ts : List Transaction)
    (hi : 2 ≤ (incomeRecurring ts).length) (he : 2 ≤ (expenseRecurring ts).length) :
    (smart_income_detection ts ∈ incomeRecurring ts ∧
      (∀ k ∈ incomeRecurring ts, k ≤ smart_income_detection ts) ∧
      smart_income_detection ts < (incomeRecurring ts).sum) ∧
    (smart_expense_total ts = ((expenseRecurring ts).map fun k => k.2.1).sum ∧
      pyMax ((expenseRecurring ts).map fun k => k.2.1) < smart_expense_total ts) := by
  have hine : incomeRecurring ts ≠ [] := by
    intro h; rw [h] at hi; simp at hi
  have heq : smart_income_detection ts = pyMax (incomeRecurring ts) := by
    rw [smart_income_detection, if_pos hine]
  have hipos : ∀ x ∈ incomeRecurring ts, 0 < x := by
    intro x hx
    rw [incomeRecurring, List.mem_filter] at hx
    have := incomeKey_ge ts x hx.1
    linarith
  refine ⟨⟨?_, ?_, ?_⟩, rfl, ?_⟩
  · rw [heq]; exact pyMax_mem _ hine
  · intro k hk; rw [heq]; exact le_pyMax _ k hk
  · rw [heq]; exact pyMax_lt_sum _ hi hipos
  · apply pyMax_lt_sum
    · rw [List.length_map]; exact he
    · intro x hx
      obtain ⟨k, hk, rfl⟩ := List.mem_map.mp hx
      rw [expenseRecurring, List.mem_filter] at hk
      have := expenseKey_amount_ge ts k hk.1
      linarith

/-- Transactions with two qualifying income series (buckets 10000 and
20000) and two qualifying expense series, for evaluating the selection
rule. -/
def two_series_ts : List Transaction :=
  [⟨"2024-01-25", "salary a", 10000⟩, ⟨"2024-02-25", "salary a", 10000⟩,
   ⟨"2024-01-28", "salary b", 20000⟩, ⟨"2024-02-28", "salary b", 20000⟩,
   ⟨"2024-01-05", "insurance prem x", -300⟩, ⟨"2024-02-05", "insurance prem x", -300⟩,
   ⟨"2024-01-06", "school fees y", -800⟩, ⟨"2024-02-06", "school fees y", -800⟩]

lemma two_series_income_len : 2 ≤ (incomeRecurring two_series_ts).length := by
  have e1 : round100 (10000:ℚ) = 10000 := by unfold round100 roundHalfEven; norm_num
  have e2 : round100 (20000:ℚ) = 20000 := by unfold round100 roundHalfEven; norm_num
  have hie : incomeEntries two_series_ts =
      [⟨"2024-01-25", "salary a", 10000⟩, ⟨"2024-02-25", "salary a", 10000⟩,
       ⟨"2024-01-28", "salary b", 20000⟩, ⟨"2024-02-28", "salary b", 20000⟩] := by
    with_unfolding_all rfl
  have hik : incomeKeys two_series_ts = [10000, 20000] := by
    rw [incomeKeys, hie]
    simp only [List.map_cons, List.map_nil, incomeKeyOf]
    rw [e1, e2]
    norm_num [List.dedup_cons_of_mem, List.dedup_cons_of_not_mem]
  have hd1 : incomeDates two_series_ts 10000 = ["2024-01-25", "2024-02-25"] := by
    rw [incomeDates, hie]
    norm_num [List.filter_cons, incomeKeyOf, e1, e2]
  have hd2 : incomeDates two_series_ts 20000 = ["2024-01-28", "2024-02-28"] := by
    rw [incomeDates, hie]
    norm_num [List.filter_cons, incomeKeyOf, e1, e2]
  have hm1 : 2 ≤ (monthsOf (incomeDates two_series_ts 10000)).length := by
    rw [hd1]; with_unfolding_all decide
  have hm2 : 2 ≤ (monthsOf (incomeDates two_series_ts 20000)).length := by
    rw [hd2]; with_unfolding_all decide
  have hrec : incomeRecurring two_series_ts = [10000, 20000] := by
    rw [incomeRecurring, hik]
    norm_num [List.filter_cons, hm1, hm2]
  rw [hrec]
  norm_num

lemma two_series_expense_len : 2 ≤ (expenseRecurring two_series_ts).length := by
  have r1 : round10 |(-300:ℚ)| = 300 := by
    rw [show |(-300:ℚ)| = 300 by norm_num]
    unfold round10 roundHalfEven; norm_num
  have r2 : round10 |(-800:ℚ)| = 800 := by
    rw [show |(-800:ℚ)| = 800 by norm_num]
    unfold round10 roundHalfEven; norm_num
  have f1 : expenseKeyOf ⟨"2024-01-05", "insurance prem x", -300⟩ =
      ("insurance", 300, "insurance prem") := by
    simp only [expenseKeyOf]
    rw [r1]
    with_unfolding_all rfl
  have f2 : expenseKeyOf ⟨"2024-02-05", "insurance prem x", -300⟩ =
      ("insurance", 300, "insurance prem") := by
    simp only [expenseKeyOf]
    rw [r1]
    with_unfolding_all rfl
  have f3 : expenseKeyOf ⟨"2024-01-06", "school fees y", -800⟩ =
      ("children", 800, "school fees") := by
    simp only [expenseKeyOf]
    rw [r2]
    with_unfolding_all rfl
  have f4 : expenseKeyOf ⟨"2024-02-06", "school fees y", -800⟩ =
      ("children", 800, "school fees") := by
    simp only [expenseKeyOf]
    rw [r2]
    with_unfolding_all rfl
  have hee : expenseEntries two_series_ts =
      [⟨"2024-01-05", "insurance prem x", -300⟩, ⟨"2024-02-05", "insurance prem x", -300⟩,
       ⟨"2024-01-06", "school fees y", -800⟩, ⟨"2024-02-06", "school fees y", -800⟩] := by
    with_unfolding_all rfl
  have hek : expenseKeys two_series_ts = [("insurance", 300, "insurance prem"),
      ("children", 800, "school fees")] := by
    rw [expenseKeys, hee]
    simp only [List.map_cons, List.map_nil, f1, f2, f3, f4]
    norm_num [List.dedup_cons_of_mem, List.dedup_cons_of_not_mem]
  have hd1 : expenseDates two_series_ts ("insurance", 300, "insurance prem") =
      ["2024-01-05", "2024-02-05"] := by
    rw [expenseDates, hee]
    norm_num [List.filter_cons, f1, f2, f3, f4]
  have hd2 : expenseDates two_series_ts ("children", 800, "school fees") =
      ["2024-01-06", "2024-02-06"] := by
    rw [expenseDates, hee]
    norm_num [List.filter_cons, f1, f2, f3, f4]
  have hq1 : 2 ≤
      (monthsOf (expenseDates two_series_ts ("insurance", 300, "insurance prem"))).length := by
    rw [hd1]; with_unfolding_all decide
  have hq2 : 2 ≤
      (monthsOf (expenseDates two_series_ts ("children", 800, "school fees"))).length := by
    rw [hd2]; with_unfolding_all decide
  have hc1 : 2 ≤ (expenseDates two_series_ts ("insurance", 300, "insurance prem")).length := by
    rw [hd1]; norm_num
  have hc2 : 2 ≤ (expenseDates two_series_ts ("children", 800, "school fees")).length := by
    rw [hd2]; norm_num
  have hrec : expenseRecurring two_series_ts = [("insurance", 300, "insurance prem"),
      ("children", 800, "school fees")] := by
    rw [expenseRecurring, hek]
    norm_num [List.filter_cons, hq1, hq2, hc1, hc2]
  rw [hrec]
  norm_num

/-- C3 witness: the max/sum selection rule evaluated on `two_series_ts`,
which has two qualifying series of each polarity. -/
theorem income_is_max_expense_is_sum_witness :
    (smart_income_detection two_series_ts ∈ incomeRecurring two_series_ts ∧
      (∀ k ∈ incomeRecurring two_series_ts, k ≤ smart_income_detection two_series_ts) ∧
      smart_income_detection two_series_ts < (incomeRecurring two_series_ts).sum) ∧
    (smart_expense_total two_series_ts =
        ((expenseRecurring two_series_ts).map fun k => k.2.1).sum ∧
      pyMax ((expenseRecurring two_series_ts).map fun k => k.2.1) <
        smart_expense_total two_series_ts) :=
  income_is_max_expense_is_sum two_series_ts two_series_income_len two_series_expense_len

/-! ## Date shapes (the regex of src/app.py line 26)

`(\d{4}-\d{2}-\d{2}|\d{2}/\d{2}/\d{4}|\d{2}-\d{2}-\d{4})`: three fixed
alternatives, each ten characters. -/

/-- A fixed-shape pattern piece: a run of exactly `n` digits (`Sum.inl n`)
or one literal character (`Sum.inr c`); `matchChunk` matches a pieces list
as a prefix of the input. -/
def matchChunk : List (Nat ⊕ Char) → List Char → Bool
  | [], _ => true
  | Sum.inl n :: rest, s =>
    decide ((s.take n).length = n) && (s.take n).all Char.isDigit && matchChunk rest (s.drop n)
  | Sum.inr c :: rest, s =>
    match s with
    | [] => false
    | x :: xs => x == c && matchChunk rest xs

/-- The `YYYY-MM-DD` alternative of the date regex. -/
def dateSpecIso : List (Nat ⊕ Char) :=
  [Sum.inl 4, Sum.inr '-', Sum.inl 2, Sum.inr '-', Sum.inl 2]

/-- The `DD/MM/YYYY` alternative of the date regex. -/
def dateSpecSlash : List (Nat ⊕ Char) :=
  [Sum.inl 2, Sum.inr '/', Sum.inl 2, Sum.inr '/', Sum.inl 4]

/-- The `DD-MM-YYYY` alternative of the date regex. -/
def dateSpecDmy : List (Nat ⊕ Char) :=
  [Sum.inl 2, Sum.inr '-', Sum.inl 2, Sum.inr '-', Sum.inl 4]

/-- A date string of exactly the `YYYY-MM-DD` shape. -/
def isIsoDate (d : String) : Bool :=
  matchChunk dateSpecIso d.toList && decide (d.toList.length = 10)

/-- Modelled from the spec: the calendar month (as `YYYY-MM`) named by a
date string in one of the three supported formats; `none` for any other
shape.  The code itself never extracts the calendar month — it buckets by
`date[:7]` — so the spec's "distinct calendar months" test is stated
against this definition. -/
def calendarMonth (d : String) : Option String :=
  if matchChunk dateSpecIso d.toList && decide (d.toList.length = 10) then
    some ⟨d.toList.take 7⟩
  else if matchChunk dateSpecSlash d.toList && decide (d.toList.length = 10) then
    some ⟨(d.toList.drop 6).take 4 ++ '-' :: (d.toList.drop 3).take 2⟩
  else if matchChunk dateSpecDmy d.toList && decide (d.toList.length = 10) then
    some ⟨(d.toList.drop 6).take 4 ++ '-' :: (d.toList.drop 3).take 2⟩
  else none

/-- Modelled from the spec: how many distinct calendar months a list of
date strings covers. -/
def distinctCalendarMonths (dates : List String) : Nat :=
  ((dates.filterMap calendarMonth).dedup).length

/-- Two same-month debits on different days, dated in the `DD/MM/YYYY`
format. -/
def slash_month_ts : List Transaction :=
  [⟨"01/02/2024", "insurance premium monthly", -500⟩,
   ⟨"15/02/2024", "insurance premium monthly", -500⟩]

/-- The expense group key both debits of `slash_month_ts` fall into. -/
def slash_month_key : String × ℚ × String := ("insurance", 500, "insurance premium mo")

/-- C4 counterexample: the biconditional fails on `DD/MM/YYYY` dates — the
two debits of `slash_month_ts` fall in one calendar month (February 2024)
yet the group is classified recurring, because the code's `date[:7]` bucket
(line 98) also spans the day digits. -/
theorem recurring_iff_counterexample :
    slash_month_key ∈ expenseRecurring slash_month_ts ∧
    distinctCalendarMonths (expenseDates slash_month_ts slash_month_key) = 1 ∧
    ¬(slash_month_key ∈ expenseRecurring slash_month_ts ↔
      2 ≤ distinctCalendarMonths (expenseDates slash_month_ts slash_month_key) ∧
      2 ≤ (expenseDates slash_month_ts slash_month_key).length) := by
  have r1 : round10 |(-500:ℚ)| = 500 := by
    rw [show |(-500:ℚ)| = 500 by norm_num]
    unfold round10 roundHalfEven; norm_num
  have f1 : expenseKeyOf ⟨"01/02/2024", "insurance premium monthly", -500⟩ =
      slash_month_key := by
    simp only [expenseKeyOf, slash_month_key]
    rw [r1]
    with_unfolding_all rfl
  have f2 : expenseKeyOf ⟨"15/02/2024", "insurance premium monthly", -500⟩ =
      slash_month_key := by
    simp only [expenseKeyOf, slash_month_key]
    rw [r1]
    with_unfolding_all rfl
  have hee : expenseEntries slash_month_ts =
      [⟨"01/02/2024", "insurance premium monthly", -500⟩,
       ⟨"15/02/2024", "insurance premium monthly", -500⟩] := by
    with_unfolding_all rfl
  have hek : expenseKeys slash_month_ts = [slash_month_key] := by
    rw [expenseKeys, hee]
    simp only [List.map_cons, List.map_nil, f1, f2]
    norm_num [List.dedup_cons_of_mem, List.dedup_cons_of_not_mem]
  have hd : expenseDates slash_month_ts slash_month_key =
      ["01/02/2024", "15/02/2024"] := by
    rw [expenseDates, hee]
    norm_num [List.filter_cons, f1, f2]
  have hm : 2 ≤ (monthsOf (expenseDates slash_month_ts slash_month_key)).length := by
    rw [hd]; with_unfolding_all decide
  have hc : 2 ≤ (expenseDates slash_month_ts slash_month_key).length := by
    rw [hd]; norm_num
  have hrec : expenseRecurring slash_month_ts = [slash_month_key] := by
    rw [expenseRecurring, hek]
    norm_num [List.filter_cons, hm, hc]
  have hdm : distinctCalendarMonths (expenseDates slash_month_ts slash_month_key) = 1 := by
    rw [hd]; with_unfolding_all decide
  refine ⟨by rw [hrec]; simp, hdm, ?_⟩
  intro hiff
  rcases hiff.mp (by rw [hrec]; simp) with ⟨h2, _⟩
  rw [hdm] at h2
  omega

lemma matchChunk_digits {n : Nat} {rest : List (Nat ⊕ Char)} {s : List Char}
    (h : matchChunk (Sum.inl n :: rest) s = true) : matchChunk rest (s.drop n) = true := by
  rw [matchChunk, Bool.and_eq_true, Bool.and_eq_true] at h
  exact h.2

lemma matchChunk_char {c : Char} {rest : List (Nat ⊕ Char)} {s : List Char}
    (h : matchChunk (Sum.inr c :: rest) s = true) :
    ∃ xs, s = c :: xs ∧ matchChunk rest xs = true := by
  cases s with
  | nil => simp [matchChunk] at h
  | cons x xs =>
    rw [matchChunk, Bool.and_eq_true] at h
    exact ⟨xs, by rw [beq_iff_eq.mp h.1], h.2⟩

lemma iso_contains_dash (d : String) (h : isIsoDate d = true) :
    (d.toList.contains '-' || d.toList.contains '/') = true := by
  rw [isIsoDate, Bool.and_eq_true] at h
  have h1 := h.1
  rw [dateSpecIso] at h1
  obtain ⟨xs, hx, _⟩ := matchChunk_char (matchChunk_digits h1)
  have hmem : '-' ∈ d.toList := by
    have hsub : List.Sublist (d.toList.drop 4) d.toList := List.drop_sublist 4 _
    exact hsub.mem (hx ▸ List.mem_cons_self '-' xs)
  simp
  exact Or.inl hmem

lemma calendarMonth_iso (d : String) (h : isIsoDate d = true) :
    calendarMonth d = some (dateBucket d) := by
  rw [isIsoDate] at h
  rw [calendarMonth, if_pos h, dateBucket]

lemma filterMap_calendarMonth_iso : ∀ ds : List String,
    (∀ d ∈ ds, isIsoDate d = true) → ds.filterMap calendarMonth = ds.map dateBucket
  | [], _ => rfl
  | d :: ds, h => by
    rw [List.filterMap_cons, calendarMonth_iso d (h d (List.mem_cons_self d ds)),
      List.map_cons,
      filterMap_calendarMonth_iso ds fun x hx => h x (List.mem_cons_of_mem d hx)]

lemma months_eq_distinct_of_iso (ds : List String) (h : ∀ d ∈ ds, isIsoDate d = true) :
    (monthsOf ds).length = distinctCalendarMonths ds := by
  have hfil : ds.filter (fun d => d.toList.contains '-' || d.toList.contains '/') = ds :=
    List.filter_eq_self.mpr fun d hd => iso_contains_dash d (h d hd)
  rw [monthsOf, distinctCalendarMonths, hfil, filterMap_calendarMonth_iso ds h]

lemma monthsOf_length_le (ds : List String) : (monthsOf ds).length ≤ ds.length := by
  rw [monthsOf]
  calc ((ds.filter _).map dateBucket).dedup.length
      ≤ ((ds.filter _).map dateBucket).length := (List.dedup_sublist _).length_le
    _ = (ds.filter _).length := List.length_map _ _
    _ ≤ ds.length := List.length_filter_le _ _

lemma expenseDates_from_ts (ts : List Transaction) (k : String × ℚ × String) :
    ∀ d ∈ expenseDates ts k, ∃ t, t ∈ ts ∧ t.date = d := by
  intro d hd
  rw [expenseDates] at hd
  obtain ⟨t, ht, rfl⟩ := List.mem_map.mp hd
  rw [List.mem_filter] at ht
  have ht2 := ht.1
  rw [expenseEntries, List.mem_filter] at ht2
  exact ⟨t, ht2.1, rfl⟩

lemma incomeDates_from_ts (ts : List Transaction) (k : ℚ) :
    ∀ d ∈ incomeDates ts k, ∃ t, t ∈ ts ∧ t.date = d := by
  intro d hd
  rw [incomeDates] at hd
  obtain ⟨t, ht, rfl⟩ := List.mem_map.mp hd
  rw [List.mem_filter] at ht
  have ht2 := ht.1
  rw [incomeEntries, List.mem_filter] at ht2
  exact ⟨t, ht2.1, rfl⟩

/-- C4 amended: the code classifies a group recurring iff it has at least 2
distinct `date[:7]` buckets and (for expenses, explicitly; for income,
implied) at least 2 occurrences.  Restricted to `YYYY-MM-DD` dates, where
the 7-character bucket is exactly the calendar month, the claimed
biconditional holds for both polarities: a group qualifies iff it covers at
least 2 distinct calendar months and occurs at least twice.  On `DD/MM/YYYY`
dates the bucket also spans the day, and the biconditional fails. -/
theorem recurring_iff_months_amended (ts : List Transaction)
    (hiso : ∀ t ∈ ts, isIsoDate t.date = true) :
    (∀ k, k ∈ expenseRecurring ts ↔ k ∈ expenseKeys ts ∧
      2 ≤ distinctCalendarMonths (expenseDates ts k) ∧ 2 ≤ (expenseDates ts k).length) ∧
    (∀ k, k ∈ incomeRecurring ts ↔ k ∈ incomeKeys ts ∧
      2 ≤ distinctCalendarMonths (incomeDates ts k) ∧ 2 ≤ (incomeDates ts k).length) := by
  have hde : ∀ k, ∀ d ∈ expenseDates ts k, isIsoDate d = true := by
    intro k d hd
    obtain ⟨t, ht, rfl⟩ := expenseDates_from_ts ts k d hd
    exact hiso t ht
  have hdi : ∀ k, ∀ d ∈ incomeDates ts k, isIsoDate d = true := by
    intro k d hd
    obtain ⟨t, ht, rfl⟩ := incomeDates_from_ts ts k d hd
    exact hiso t ht
  constructor
  · intro k
    rw [expenseRecurring, List.mem_filter, Bool.and_eq_true, decide_eq_true_eq,
      decide_eq_true_eq, months_eq_distinct_of_iso _ (hde k)]
  · intro k
    rw [incomeRecurring, List.mem_filter, decide_eq_true_eq]
    constructor
    · intro hk
      have hcount : 2 ≤ (incomeDates ts k).length :=
        le_trans hk.2 (monthsOf_length_le _)
      rw [months_eq_distinct_of_iso _ (hdi k)] at hk
      exact ⟨hk.1, hk.2, hcount⟩
    · intro hk
      refine ⟨hk.1, ?_⟩
      rw [months_eq_distinct_of_iso _ (hdi k)]
      exact hk.2.1

/-- C4 amended witness: the biconditional on the ISO-dated transactions of
`two_series_ts`. -/
theorem recurring_iff_months_amended_witness :
    (∀ k, k ∈ expenseRecurring two_series_ts ↔ k ∈ expenseKeys two_series_ts ∧
      2 ≤ distinctCalendarMonths (expenseDates two_series_ts k) ∧
      2 ≤ (expenseDates two_series_ts k).length) ∧
    (∀ k, k ∈ incomeRecurring two_series_ts ↔ k ∈ incomeKeys two_series_ts ∧
      2 ≤ distinctCalendarMonths (incomeDates two_series_ts k) ∧
      2 ≤ (incomeDates two_series_ts k).length) :=
  recurring_iff_months_amended two_series_ts (by with_unfolding_all decide)
lemma mem_incomeKeys_of_recurring {ts : List Transaction} {x : ℚ}
    (h : x ∈ incomeRecurring ts) : x ∈ incomeKeys ts := by
  rw [incomeRecurring] at h
  exact (List.mem_filter.mp h).1

lemma credits_gt {ts : List Transaction} {c : ℚ} (h : c ∈ credits ts) : 5000 < c := by
  rw [credits, List.mem_filter] at h
  exact of_decide_eq_true h.2

/-- C10: income detection always returns a strictly positive amount — a
recurring bucket is at least 1000, the fallback single credit exceeds 5000
(and is the largest such credit), and otherwise the fixed default 15000 is
returned — so `netMonthlyIncome = 0.75 × income` is strictly positive and
the guards zeroing the two ratios when net income is non-positive are
unreachable: both ratios always take their division form. -/
theorem income_always_positive (ts : List Transaction) :
    0 < smart_income_detection ts ∧
    0 < net_income (smart_income_detection ts) ∧
    (incomeRecurring ts = [] → credits ts ≠ [] →
      smart_income_detection ts ∈ credits ts ∧
      ∀ c ∈ credits ts, c ≤ smart_income_detection ts) ∧
    (incomeRecurring ts = [] → credits ts = [] → smart_income_detection ts = 15000) ∧
    (∀ e, affordability_ratio (smart_income_detection ts) e =
        discretionary_income (smart_income_detection ts) e /
          net_income (smart_income_detection ts) * 100 ∧
      debt_service_ratio (smart_income_detection ts) e =
        max_payment (smart_income_detection ts) e /
          net_income (smart_income_detection ts) * 100) := by
  have hpos : 0 < smart_income_detection ts := by
    rw [smart_income_detection]
    split
    · rename_i hne
      have h1000 := incomeKey_ge ts _ (mem_incomeKeys_of_recurring (pyMax_mem _ hne))
      linarith
    · split
      · rename_i hcne
        have h5000 := credits_gt (pyMax_mem _ hcne)
        linarith
      · norm_num
  have hnet : 0 < net_income (smart_income_detection ts) := by
    rw [net_income]; nlinarith
  refine ⟨hpos, hnet, ?_, ?_, ?_⟩
  · intro h1 h2
    rw [smart_income_detection, if_neg (by simp [h1]), if_pos h2]
    exact ⟨pyMax_mem _ h2, fun c hc => le_pyMax _ c hc⟩
  · intro h1 h2
    rw [smart_income_detection, if_neg (by simp [h1]), if_neg (by simp [h2])]
  · intro e
    constructor
    · rw [affordability_ratio, if_pos hnet]
    · rw [debt_service_ratio, if_pos hnet]

/-! ## The post-extraction pipeline (src/app.py lines 158-189) -/

/-- The affordability record the script computes and renders after income
and expense detection (lines 165-189). -/
structure Assessment where
  monthly_income : ℚ
  monthly_expenses : ℚ
  net : ℚ
  other_debt : ℚ
  discretionary : ℚ
  payment : ℚ
  loan : ℚ
  afford_pct : ℚ
  debt_service_pct : ℚ
  compliant : Bool
deriving DecidableEq, Repr

/-- The outcome of the pipeline run on the extracted transactions: either
the script stops with an error box (`st.error` + `st.stop`, lines 158-160)
or it renders an assessment. -/
inductive PipelineOutcome where
  | stopped (msg : String)
  | done (a : Assessment)
deriving DecidableEq, Repr

/-- Whether an outcome carries an assessment. -/
def producesAssessment : PipelineOutcome → Bool
  | PipelineOutcome.stopped _ => false
  | PipelineOutcome.done _ => true

/-- Lines 158-189: the post-extraction pipeline.  An empty transaction list
stops the script with the line-159 error message; otherwise the detectors
and the calculator run and an assessment is produced. -/
def runPipeline (ts : List Transaction) : PipelineOutcome :=
  if ts.isEmpty then
    PipelineOutcome.stopped ("No transactions found. Please check your file format.")
  else
    PipelineOutcome.done
      { monthly_income := smart_income_detection ts
        monthly_expenses := smart_expense_total ts
        net := net_income (smart_income_detection ts)
        other_debt := estimated_other_debt (smart_income_detection ts)
        discretionary := discretionary_income (smart_income_detection ts)
          (smart_expense_total ts)
        payment := max_payment (smart_income_detection ts) (smart_expense_total ts)
        loan := max_loan (smart_income_detection ts) (smart_expense_total ts)
        afford_pct := affordability_ratio (smart_income_detection ts) (smart_expense_total ts)
        debt_service_pct := debt_service_ratio (smart_income_detection ts)
          (smart_expense_total ts)
        compliant := nca_compliant (smart_income_detection ts) (smart_expense_total ts) }

/-- C5 counterexample: with zero extracted transactions the script stops at
line 160 with the line-159 error message and produces no assessment at all —
in particular no zeroed, non-compliant assessment with a "no transactions
found" reason is reported. -/
theorem empty_pipeline_counterexample :
    runPipeline [] =
      PipelineOutcome.stopped ("No transactions found. Please check your file format.") ∧
    producesAssessment (runPipeline []) = false :=
  ⟨rfl, rfl⟩

/-- C5 amended: with zero extracted transactions the pipeline reports the
error "No transactions found. Please check your file format." and halts
(st.stop) without producing an assessment — the stop is a handled
control-flow signal, not an exception propagated out of the script; with at
least one transaction an assessment is always produced. -/
theorem empty_pipeline_amended (ts : List Transaction) :
    (ts = [] → runPipeline ts =
      PipelineOutcome.stopped ("No transactions found. Please check your file format.")) ∧
    (ts ≠ [] → ∃ a, runPipeline ts = PipelineOutcome.done a) := by
  constructor
  · intro h; rw [h]; rfl
  · intro h
    rw [runPipeline, if_neg (by simp [h])]
    exact ⟨_, rfl⟩

/-! ## Transaction normalizer (src/app.py lines 20-56)

A faithful model of `parse_transactions_from_text`: the date regex of line
26 as a leftmost search over the three fixed alternatives; the amount
regex of line 27 (an amount capture followed by whitespace and a balance
amount) and its line-40 simple fallback with full backtracking order; the
`rfind`-based description slice of lines 49-51. -/

/-- Python `str.strip`. -/
def pyStrip (s : List Char) : List Char :=
  ((s.dropWhile Char.isWhitespace).reverse.dropWhile Char.isWhitespace).reverse

/-- Leftmost index at which the prefix-matcher `p` succeeds (`re.search`). -/
def searchIdx (p : List Char → Bool) : List Char → Option Nat
  | [] => if p [] then some 0 else none
  | c :: rest => if p (c :: rest) then some 0 else (searchIdx p rest).map (· + 1)

/-- The line-26 date alternation tried at one position, in source order;
every alternative spans ten characters. -/
def matchDateAt (s : List Char) : Bool :=
  matchChunk dateSpecIso s || matchChunk dateSpecSlash s || matchChunk dateSpecDmy s

/-- The greedy count of `,\d{3}` repetitions at the head of the input. -/
def commaGroupsMax : List Char → Nat
  | c :: a :: b :: d :: rest =>
    if c = ',' && a.isDigit && b.isDigit && d.isDigit then commaGroupsMax rest + 1 else 0
  | _ => 0

/-- Does `\.\d{2}` match at the head of the input. -/
def tailDec : List Char → Bool
  | c :: a :: b :: _ => c = '.' && a.isDigit && b.isDigit
  | _ => false

/-- Lengths consumed by `(?:,\d{3})*(?:\.\d{2})` for the repetition counts
`k, k-1, …, 0`, in the greedy backtracking order. -/
def tailCandidates (s : List Char) : Nat → List Nat
  | 0 => if tailDec s then [3] else []
  | k + 1 =>
    (if tailDec (s.drop (4 * (k + 1))) then [4 * (k + 1) + 3] else []) ++ tailCandidates s k

/-- Candidate lengths of `\d{d}(?:,\d{3})*(?:\.\d{2})` at the head, for one
digit count `d`. -/
def coreCandD (d : Nat) (s : List Char) : List Nat :=
  if decide ((s.take d).length = d) && (s.take d).all Char.isDigit then
    (tailCandidates (s.drop d) (commaGroupsMax (s.drop d))).map (· + d)
  else []

/-- All candidate match lengths of `\d{1,3}(?:,\d{3})*(?:\.\d{2})` at the
head, in the regex backtracking order (3 digits first, then 2, then 1). -/
def coreCandidates (s : List Char) : List Nat :=
  coreCandD 3 s ++ coreCandD 2 s ++ coreCandD 1 s

/-- All candidate match lengths of the full simple amount
`-?\d{1,3}(?:,\d{3})*(?:\.\d{2})` at the head: with a leading minus the
minus branch is tried first (`-?` is greedy); a bare minus can never start
the digit core, so the second branch is empty there. -/
def amountCandidates (s : List Char) : List Nat :=
  match s with
  | '-' :: rest => (coreCandidates rest).map (· + 1) ++ coreCandidates s
  | _ => coreCandidates s

/-- Length of the whitespace run at the head (`\s+` greedy). -/
def wsRun (s : List Char) : Nat := (s.takeWhile Char.isWhitespace).length

/-- The line-27 compound pattern `(amount)\s+amount` matched at one
position: the first amount candidate followed by at least one whitespace
character and a second (minus-less) amount; returns the captured group's
length.  The balance amount starts with a digit, so of the `\s+` splits
only the full whitespace run can succeed; the `any` scans them all as the
regex engine does. -/
def compoundAt (s : List Char) : Option Nat :=
  (amountCandidates s).find? fun a =>
    let rest := s.drop a
    let w := wsRun rest
    decide (1 ≤ w) && (List.range' 1 w).any fun j => !(coreCandidates (rest.drop j)).isEmpty

/-- Leftmost position at which the positional matcher `f` succeeds,
together with its payload (`re.search` for patterns with a match length). -/
def searchO (f : List Char → Option Nat) : List Char → Option (Nat × Nat)
  | [] => (f []).map ((0, ·))
  | c :: rest =>
    match f (c :: rest) with
    | some a => some (0, a)
    | none => (searchO f rest).map fun r => (r.1 + 1, r.2)

/-- The simple amount pattern matched at one position: the first candidate
in backtracking order. -/
def simpleAmountAt (s : List Char) : Option Nat := (amountCandidates s).head?

/-- Lines 37-46: the chosen amount — position and length of the first
compound (amount + balance) match, else of the first simple amount match;
`none` when the line has neither. -/
def chosenAmount (l : List Char) : Option (Nat × Nat) :=
  match searchO compoundAt l with
  | some r => some r
  | none => searchO simpleAmountAt l

/-- The natural number named by a run of ASCII digits. -/
def digitsToNat (l : List Char) : ℕ :=
  l.foldl (fun n c => 10 * n + (c.toNat - 48)) 0

/-- The cents value of a comma-free amount body `digits.dd`. -/
def centsCore (l : List Char) : ℤ :=
  ((digitsToNat (l.takeWhile fun c => c ≠ '.')) * 100
    + digitsToNat ((l.dropWhile fun c => c ≠ '.').drop 1) : ℕ)

/-- Lines 42 and 46: `float(matched.replace(',', ''))`, exactly, in cents —
a parsed amount is always an exact multiple of 1/100 (never NaN). -/
def centsOf (s : List Char) : ℤ :=
  match s.filter (fun c => c ≠ ',') with
  | '-' :: rest => -(centsCore rest)
  | t => centsCore t

/-- Python `line.rfind(sub)`: the largest index where `sub` begins. -/
def rfindSub (pat s : List Char) : Option Nat :=
  ((List.range (s.length + 1)).reverse).find? fun i => pat.isPrefixOf (s.drop i)

/-- Lines 29-54: one line of the statement text to at most one transaction.
The date is the ten-character match, the amount the chosen (compound-first)
match, the description the stripped slice from the date end to the last
occurrence of the amount text, truncated to 50 characters; the transaction
is kept only when the description is nonempty and the amount magnitude
exceeds 0.01. -/
def parseLine (l : List Char) : Option Transaction :=
  match searchIdx matchDateAt l with
  | none => none
  | some i =>
    match chosenAmount l with
    | none => none
    | some (j, a) =>
      let amtStr := (l.drop j).take a
      let c := centsOf amtStr
      let dEnd := (rfindSub amtStr l).getD 0
      let desc := (pyStrip ((l.drop (i + 10)).take (dEnd - (i + 10)))).take 50
      if desc ≠ [] ∧ 1 < c.natAbs then
        some ⟨⟨(l.drop i).take 10⟩, ⟨desc⟩, (c : ℚ) / 100⟩
      else none

/-- Python `text.split('\n')` on character lists. -/
def splitNlAux : List Char → List Char → List (List Char)
  | [], cur => [cur.reverse]
  | c :: rest, cur =>
    if c = '\n' then cur.reverse :: splitNlAux rest [] else splitNlAux rest (c :: cur)

/-- The newline split of a text. -/
def splitNl (s : List Char) : List (List Char) := splitNlAux s []

/-- Line 22: the stripped lines longer than ten characters. -/
def linesOf (text : List Char) : List (List Char) :=
  ((splitNl text).map pyStrip).filter fun l => decide (10 < l.length)

/-- Lines 20-56, `parse_transactions_from_text`. -/
def parse_transactions_from_text (text : String) : List Transaction :=
  (linesOf text.toList).filterMap parseLine

/-- The leftmost non-overlapping simple-amount matches of a character list
(`re.findall` of the line-40 pattern), fuel-bounded by the input length
(every match consumes at least three characters, so the fuel suffices). -/
def findallAmountsFuel : Nat → List Char → List (List Char)
  | 0, _ => []
  | fuel + 1, s =>
    match searchO simpleAmountAt s with
    | none => []
    | some (i, a) => ((s.drop i).take a) :: findallAmountsFuel fuel (s.drop (i + a))

/-- Modelled from the spec: the last amount-shaped token of a character
list — the final of the leftmost non-overlapping amount matches. -/
def lastAmountToken (s : List Char) : Option (List Char) :=
  (findallAmountsFuel s.length s).getLast?

/-- Modelled from the spec: the amount the claim says the normalizer
chooses — the last amount-shaped token of the line remainder after the
date match — in cents. -/
def specChosenCents (l : List Char) : Option ℤ :=
  match searchIdx matchDateAt l with
  | none => none
  | some i => (lastAmountToken (l.drop (i + 10))).map centsOf

/-- A statement line whose amount column (100.00) equals its balance column
and is followed by one more amount-shaped token (300.00). -/
def demo_line : String := "2023-01-01 SHOP 100.00 100.00 300.00"

/-- The characters of `demo_line`. -/
def demo_chars : List Char := ("2023-01-01 SHOP 100.00 100.00 300.00").toList

/-- C9 counterexample: on `demo_line` the normalizer emits amount 100 — the
capture of the first amount-plus-balance match (line 46 takes
`amount_matches[0]`) — not the last amount-shaped token of the remainder,
which is 300.00; and the description is the slice up to the last occurrence
of the chosen amount's text (line 50 `rfind`), "SHOP 100.00", not the
substring before the chosen amount's start, "SHOP". -/
theorem parser_last_amount_counterexample :
    parse_transactions_from_text demo_line = [⟨"2023-01-01", "SHOP 100.00", 100⟩] ∧
    specChosenCents demo_line.toList = some 30000 ∧
    (100 : ℚ) ≠ ((30000 : ℤ) : ℚ) / 100 ∧
    ("SHOP 100.00" : String) ≠ "SHOP" := by
  have hsearch : searchIdx matchDateAt demo_chars = some 0 := by with_unfolding_all decide
  have hchars : demo_line.toList = demo_chars := rfl
  refine ⟨?_, ?_, by norm_num, by decide⟩
  · have hchosen : chosenAmount demo_chars = some (16, 6) := by with_unfolding_all decide
    have hamt : (demo_chars.drop 16).take 6 = ("100.00").toList := by
      with_unfolding_all decide
    have hcents : centsOf (("100.00").toList) = 10000 := by with_unfolding_all decide
    have hrfind : rfindSub (("100.00").toList) demo_chars = some 23 := by
      with_unfolding_all decide
    have hpl : parseLine demo_chars =
        some ⟨"2023-01-01", "SHOP 100.00", ((10000 : ℤ) : ℚ) / 100⟩ := by
      simp only [parseLine, hsearch, hchosen]
      rw [hamt, hcents, hrfind]
      with_unfolding_all rfl
    have hlines : linesOf demo_line.toList = [demo_chars] := by with_unfolding_all decide
    rw [parse_transactions_from_text, hlines]
    simp only [List.filterMap_cons, List.filterMap_nil, hpl]
    norm_num [Transaction.mk.injEq]
  · have hrem : demo_chars.drop (0 + 10) = (" SHOP 100.00 100.00 300.00").toList := by
      with_unfolding_all decide
    have hlast : lastAmountToken ((" SHOP 100.00 100.00 300.00").toList) =
        some (("300.00").toList) := by with_unfolding_all decide
    have hc300 : centsOf (("300.00").toList) = 30000 := by with_unfolding_all decide
    rw [hchars]
    simp only [specChosenCents, hsearch, hrem, hlast, hc300, Option.map_some']

/-- C9 amended: every emitted transaction comes from a stripped line longer
than ten characters on which both the date search and the amount search
succeed — lines lacking either are silently skipped; the amount chosen is
the first match of the amount-followed-by-balance pattern, or failing that
the first simple amount match anywhere in the line (not the last token of
the remainder); the description — the stripped slice from the date-match
end to the last occurrence of the chosen amount's text, truncated to 50
characters — is never empty; and the amount is an exact multiple of 1/100
(never NaN) of magnitude above 0.01. -/
theorem parse_only_if_amended (text : String) (t : Transaction)
    (h : t ∈ parse_transactions_from_text text) :
    t.description ≠ "" ∧ t.description.length ≤ 50 ∧ 1 / 100 < |t.amount| ∧
    (∃ c : ℤ, t.amount = (c : ℚ) / 100) ∧
    ∃ l ∈ linesOf text.toList, 10 < l.length ∧
      (searchIdx matchDateAt l).isSome ∧ (chosenAmount l).isSome ∧
      parseLine l = some t := by
  rw [parse_transactions_from_text] at h
  obtain ⟨l, hl, hpl⟩ := List.mem_filterMap.mp h
  have hlen : 10 < l.length := by
    rw [linesOf, List.mem_filter] at hl
    exact of_decide_eq_true hl.2
  have hlmem : l ∈ linesOf text.toList := hl
  have hpl0 := hpl
  rw [parseLine] at hpl
  split at hpl
  · simp at hpl
  rename_i i hi
  split at hpl
  · simp at hpl
  rename_i pr j a hc
  simp only [] at hpl
  split at hpl
  case isFalse => simp at hpl
  rename_i hcond
  obtain ⟨hdesc, hna⟩ := hcond
  have ht := Option.some.inj hpl
  subst ht
  refine ⟨?_, ?_, ?_, ⟨_, rfl⟩, l, hlmem, hlen, by rw [hi]; rfl, by rw [hc]; rfl, hpl0⟩
  · intro h0
    exact hdesc (by simpa using congrArg String.data h0)
  · show ((pyStrip _).take 50).length ≤ 50
    exact List.length_take_le 50 _
  · show (1 : ℚ) / 100 < |(((centsOf ((l.drop j).take a)) : ℤ) : ℚ) / 100|
    have h1 : (1 : ℚ) < |((centsOf ((l.drop j).take a) : ℤ) : ℚ)| := by
      have h2 : (1 : ℤ) < |centsOf ((l.drop j).take a)| := by
        rw [Int.abs_eq_natAbs]
        exact_mod_cast hna
      calc (1 : ℚ) < ((|centsOf ((l.drop j).take a)| : ℤ) : ℚ) := by exact_mod_cast h2
        _ = |((centsOf ((l.drop j).take a) : ℤ) : ℚ)| := Int.cast_abs
    rw [abs_div, abs_of_pos (by norm_num : (0 : ℚ) < 100)]
    linarith

/-- A plain statement line: date, description, amount, balance. -/
def witness_line : String := "2023-01-01 SHOP 100.00 200.00"

/-- The characters of `witness_line`. -/
def witness_chars : List Char := ("2023-01-01 SHOP 100.00 200.00").toList

/-- The transaction the normalizer extracts from `witness_line`. -/
def witness_tx : Transaction := ⟨"2023-01-01", "SHOP", ((10000 : ℤ) : ℚ) / 100⟩

/-- C9 amended witness: the amended normalizer properties evaluated at the
transaction parsed from `witness_line`. -/
theorem parse_only_if_amended_witness :
    witness_tx.description ≠ "" ∧ witness_tx.description.length ≤ 50 ∧
    1 / 100 < |witness_tx.amount| ∧
    (∃ c : ℤ, witness_tx.amount = (c : ℚ) / 100) ∧
    ∃ l ∈ linesOf witness_line.toList, 10 < l.length ∧
      (searchIdx matchDateAt l).isSome ∧ (chosenAmount l).isSome ∧
      parseLine l = some witness_tx :=
  parse_only_if_amended witness_line witness_tx (by
    have hsearch : searchIdx matchDateAt witness_chars = some 0 := by
      with_unfolding_all decide
    have hchosen : chosenAmount witness_chars = some (16, 6) := by with_unfolding_all decide
    have hamt : (witness_chars.drop 16).take 6 = ("100.00").toList := by
      with_unfolding_all decide
    have hcents : centsOf (("100.00").toList) = 10000 := by with_unfolding_all decide
    have hrfind : rfindSub (("100.00").toList) witness_chars = some 16 := by
      with_unfolding_all decide
    have hpl : parseLine witness_chars = some witness_tx := by
      simp only [parseLine, hsearch, hchosen]
      rw [hamt, hcents, hrfind]
      with_unfolding_all rfl
    have hlines : linesOf witness_line.toList = [witness_chars] := by
      with_unfolding_all decide
    rw [parse_transactions_from_text, hlines]
    simp only [List.filterMap_cons, List.filterMap_nil, hpl]
    exact List.mem_singleton_self _)
